import Mathlib

/-!
Shallow embedding of `src/services/http_request_service.ts` (Drash's
`HttpRequestService`) together with the parts of its environment that its
behaviour depends on (JavaScript string/number semantics, the case-insensitive
`Headers` map, a single-consumption body stream).  All definitions are
translated directly from the TypeScript source; the only definition translated
from the specification's words is `parseQueryParamsString`, whose source
(`src/services/string_service.ts`) is not part of the shown sources.
-/

namespace Drash

/-! ## JavaScript string and number semantics -/

/-- ASCII lowercase of one character (header names are ASCII tokens). -/
def charLower (c : Char) : Char :=
  if 'A' ≤ c ∧ c ≤ 'Z' then Char.ofNat (c.toNat + 32) else c

/-- ASCII lowercase of a string. -/
def strLower (s : String) : String :=
  String.mk (s.data.map charLower)

/-- Case-insensitive comparison of header names, as performed by the
`Headers` web API (`headers.get(name)` matches names case-insensitively). -/
def lowerEq (a b : String) : Bool :=
  strLower a == strLower b

/-- `headers.get(name)`: the value of the first header whose name matches
case-insensitively, or `none` (JS `null`) when no header matches. -/
def headersGet (hs : List (String × String)) (name : String) : Option String :=
  (hs.find? (fun p => lowerEq p.1 name)).map (·.2)

/-- `headers.set(name, value)`: replace the value of any header matching
case-insensitively, or append the pair when none matches. -/
def headersSet (hs : List (String × String)) (name v : String) :
    List (String × String) :=
  if hs.any (fun p => lowerEq p.1 name) then
    hs.map (fun p => if lowerEq p.1 name then (p.1, v) else p)
  else
    hs ++ [(name, v)]

/-- JavaScript truthiness of a nullable string: `null`/`undefined` and the
empty string are falsy, every other string is truthy. -/
def truthyOpt : Option String → Bool
  | none => false
  | some s => s != ""

/-- `s.split(sep)` for a one-character separator, at the character level
(exact JavaScript behaviour for a non-empty, non-regex separator of length
one: `""` splits to `[""]`, a trailing separator yields a final `""`). -/
def splitChar (sep : Char) : List Char → List (List Char)
  | [] => [[]]
  | c :: rest =>
    if c = sep then
      [] :: splitChar sep rest
    else
      match splitChar sep rest with
      | [] => [[c]]
      | g :: gs => (c :: g) :: gs

/-- `s.split(sep)[i]`, returning `dflt` when the index is out of range. -/
def jsSplitGet (sep : Char) (s : String) (i : Nat) (dflt : String) : String :=
  String.mk ((splitChar sep s.data).getD i dflt.data)

/-- Does the first list start with the second (element-wise, decidable)? -/
def listLeads [BEq α] : List α → List α → Bool
  | [], _ => true
  | _ :: _, [] => false
  | a :: as, b :: bs => a == b && listLeads as bs

/-- Does `pat` occur as a contiguous run inside the list?  This is the
character-level content of JavaScript's `String.prototype.includes`. -/
def listIncludes [BEq α] (pat : List α) : List α → Bool
  | [] => listLeads pat ([] : List α)
  | c :: rest => listLeads pat (c :: rest) || listIncludes pat rest

/-- `s.includes(pat)` (JavaScript substring containment). -/
def strIncludes (s pat : String) : Bool :=
  listIncludes pat.data s.data

/-- Numeric value of a decimal digit character. -/
def digitVal (c : Char) : Nat := c.toNat - '0'.toNat

/-- Numeric value of a hexadecimal digit character, or `none`. -/
def hexDigitVal (c : Char) : Option Nat :=
  if c.isDigit then some (digitVal c)
  else if 'a' ≤ c ∧ c ≤ 'f' then some (c.toNat - 'a'.toNat + 10)
  else if 'A' ≤ c ∧ c ≤ 'F' then some (c.toNat - 'A'.toNat + 10)
  else none

/-- Value of a non-empty list of decimal digits. -/
def natOfDec (cs : List Char) : Nat :=
  cs.foldl (fun a c => a * 10 + digitVal c) 0

/-- Value of a non-empty list of hexadecimal digits. -/
def natOfHex (cs : List Char) : Nat :=
  cs.foldl (fun a c => a * 16 + (hexDigitVal c).getD 0) 0

/-- JavaScript `parseInt(s)` (radix auto-detected): skip leading whitespace,
an optional sign, then either a `0x`/`0X` hexadecimal literal or the longest
leading run of decimal digits; `none` models `NaN` (no digits found). -/
def parseIntStr (s : String) : Option Int :=
  let cs := s.data.dropWhile Char.isWhitespace
  let signed : Int × List Char :=
    match cs with
    | '-' :: rest => (-1, rest)
    | '+' :: rest => (1, rest)
    | _ => (1, cs)
  let sign := signed.1
  let cs := signed.2
  match cs with
  | '0' :: x :: rest =>
    if x = 'x' ∨ x = 'X' then
      let ds := rest.takeWhile (fun c => (hexDigitVal c).isSome)
      if ds.isEmpty then none else some (sign * (natOfHex ds : Int))
    else
      let ds := cs.takeWhile Char.isDigit
      if ds.isEmpty then none else some (sign * (natOfDec ds : Int))
  | _ =>
    let ds := cs.takeWhile Char.isDigit
    if ds.isEmpty then none else some (sign * (natOfDec ds : Int))

/-- `parseInt` applied to a nullable string: `parseInt(null)` and
`parseInt(undefined)` stringify to `"null"`/`"undefined"`, which contain no
leading digits, hence `NaN` (`none`). -/
def jsParseInt : Option String → Option Int
  | none => none
  | some s => parseIntStr s

/-- `x > 0` where `x` may be `NaN` (`NaN > 0` is `false` in JavaScript). -/
def intGtZero : Option Int → Bool
  | none => false
  | some n => 0 < n

/-- Percent-decoding of `%hh` escapes (best-effort: malformed escapes are
left in place). -/
def percentDecode : List Char → List Char
  | '%' :: a :: b :: rest =>
    match hexDigitVal a, hexDigitVal b with
    | some x, some y => Char.ofNat (x * 16 + y) :: percentDecode rest
    | _, _ => '%' :: percentDecode (a :: b :: rest)
  | c :: rest => c :: percentDecode rest
  | [] => []

/-- URL-decode one query-string token: `+` becomes a space, then
percent-escapes are decoded. -/
def urlDecode (s : String) : String :=
  String.mk (percentDecode (s.data.map (fun c => if c = '+' then ' ' else c)))

/-! ## Data model -/

/-- A JavaScript/JSON value, as far as the service's behaviour depends on
its shape. -/
inductive JsValue where
  | null
  | bool (b : Bool)
  | num (n : Int)
  | str (s : String)
  | arr (xs : List JsValue)
  | obj (fields : List (String × JsValue))

/-- The value stored in `ParsedBody.data` by the three decode branches of
`parseBody`: an `application/x-www-form-urlencoded` field map, a
`multipart/form-data` form, or a parsed JSON value. -/
inductive BodyData where
  | form (fields : List (String × String))
  | multipart (fields : List (String × String))
  | json (v : JsValue)

/-- The `ParsedBody` interface of the source: both fields may be
`undefined` (`none`). -/
structure ParsedBody where
  content_type : Option String
  data : Option BodyData

/-- The single-consumption body stream of a request: reading a second time
observes an empty read. -/
structure Stream where
  data : String
  consumed : Bool
deriving DecidableEq

/-- `Deno.readAll(stream)`: the remaining contents (empty when already
consumed), and the stream afterwards. -/
def readAll (s : Stream) : String × Stream :=
  (if s.consumed then "" else s.data, { s with consumed := true })

/-- The request object as the service touches it: the raw fields supplied by
the listener/router (`url`, `headers`, `body`, `path_params`) and the fields
the service itself attaches during hydration (all `none`, i.e. `undefined`,
until attached).  `parsed_body` is modelled as an optional string map because
`getResponseContentType` only reads its `response_content_type` property. -/
structure Request where
  url : String
  headers : List (String × String)
  body : Stream
  path_params : List (String × String) := []
  url_path : Option String := none
  url_query_params : Option (List (String × String)) := none
  response_content_type : Option String := none
  parsed_body : Option (List (String × String)) := none
deriving DecidableEq

/-- The `memory_allocation` configuration object; `multipart_form_data` is
an optional number (megabytes before normalization, bytes after). -/
structure MemAlloc where
  multipart_form_data : Option Int := none
deriving DecidableEq

/-- The options object passed to `hydrate`/`parseBody`. -/
structure Options where
  headers : Option (List (String × String)) := none
  default_response_content_type : Option String := none
  memory_allocation : Option MemAlloc := none
deriving DecidableEq

/-- External decoders the service delegates to: `JSON.parse` and the Deno
standard library's `MultipartReader.readForm` (body text, boundary, byte
limit).  Both are outside the shown sources, so the embedding is parametric
in them; an error models a thrown exception. -/
structure JsEnv where
  jsonParse : String → Except String JsValue
  multipartDecode : String → String → Int → Except String (List (String × String))

/-! ## StringService (not among the shown sources) -/

/-- Insert a key/value pair into an association list, overwriting an
existing binding of the same key, so that a later occurrence wins. -/
def insertPair (m : List (String × String)) (k v : String) :
    List (String × String) :=
  if m.any (fun p => p.1 == k) then
    m.map (fun p => if p.1 == k then (p.1, v) else p)
  else
    m ++ [(k, v)]

/-- Split one `key=value` segment at its first `=`; a segment with no `=`
yields an empty value. -/
def splitPair (seg : List Char) : String × String :=
  (urlDecode (String.mk (seg.takeWhile (· ≠ '='))),
   urlDecode (String.mk ((seg.dropWhile (· ≠ '=')).drop 1)))

/-- Modelled from the spec: `StringService.parseQueryParamsString`
(`src/services/string_service.ts`, not among the shown sources).  Per §4.1,
it decodes a query string of `key=value` pairs joined by `&` into a mapping;
a repeated key keeps the last occurrence; keys and values are URL-decoded.
Empty segments are skipped, so the empty string decodes to the empty
mapping. -/
def parseQueryParamsString (s : String) : List (String × String) :=
  ((splitChar '&' s.data).filter (fun seg => ¬ seg.isEmpty)).foldl
    (fun m seg =>
      let p := splitPair seg
      insertPair m p.1 p.2)
    []

/-! ## HttpRequestService -/

/-- Indexing a JSON value by a property name, as `data[input]` behaves when
`data` is a parsed JSON value: an object looks the key up (`undefined` when
absent), `null` raises a `TypeError`, and every other value yields
`undefined`. -/
def jsIndexJson : JsValue → String → Except String (Option JsValue)
  | .null, _ => .error "TypeError: Cannot read property of null"
  | .obj fields, k => .ok (fields.lookup k)
  | _, _ => .ok none

/-- `parsedBody.data[input]`: indexing `undefined` raises a `TypeError`;
indexing a form or multipart field map looks the key up; indexing a JSON
value follows `jsIndexJson`. -/
def dataIndex : Option BodyData → String → Except String (Option JsValue)
  | none, _ => .error "TypeError: Cannot read property of undefined"
  | some (.form fields), k => .ok ((fields.lookup k).map .str)
  | some (.multipart fields), k => .ok ((fields.lookup k).map .str)
  | some (.json v), k => jsIndexJson v k

/-- `getRequestBodyFile(parsedBody, input)`: `return parsedBody.data[input]`. -/
def getRequestBodyFile (parsedBody : ParsedBody) (input : String) :
    Except String (Option JsValue) :=
  dataIndex parsedBody.data input

/-- `getRequestBodyParam(parsedBody, input)`: `return parsedBody.data[input]`. -/
def getRequestBodyParam (parsedBody : ParsedBody) (input : String) :
    Except String (Option JsValue) :=
  dataIndex parsedBody.data input

/-- `getRequestHeaderParam(request, input)`: `return request.headers.get(input)`. -/
def getRequestHeaderParam (request : Request) (input : String) : Option String :=
  headersGet request.headers input

/-- `getResponseContentType(request, defaultContentType)`.  The default
parameter `= "application/json"` applies when the argument is `undefined`
(`none`); the body of the function then replaces any falsy default by
`"application/json"` as well.  The three sources are checked header, then
query params, then parsed body, each assignment keeping the previous value
unless the new source is truthy; `request.url_query_params.response_content_type`
dereferences `url_query_params`, which raises a `TypeError` when that field
is `undefined` (it is attached by `hydrate` before this runs). -/
def getResponseContentType (request : Request)
    (defaultContentType : Option String) : Except String String :=
  let d :=
    match defaultContentType with
    | none => "application/json"
    | some s => if s == "" then "application/json" else s
  match request.url_query_params with
  | none => .error "TypeError: Cannot read property of undefined"
  | some qp =>
    let ct : Option String := none
    let h := headersGet request.headers "Response-Content-Type"
    let ct := if truthyOpt h then h else ct
    let q := qp.lookup "response_content_type"
    let ct := if truthyOpt q then q else ct
    let ct :=
      match request.parsed_body with
      | none => ct
      | some pb =>
        let b := pb.lookup "response_content_type"
        if truthyOpt b then b else ct
    .ok (match ct with
      | none => d
      | some s => if s == "" then d else s)

/-- `getUrlPath(request)`: the URL unchanged when it is `"/"` or has no
`?`; otherwise `url.split("?")[0]`. -/
def getUrlPath (request : Request) : String :=
  if request.url == "/" then request.url
  else if request.url.data.contains '?' = false then request.url
  else jsSplitGet '?' request.url 0 request.url

/-- `getUrlQueryString(request)`: `null` when the URL has no `?`; otherwise
`url.split("?")[1]` — the segment between the first and second `?`. -/
def getUrlQueryString (request : Request) : Option String :=
  if request.url.data.contains '?' = false then none
  else some (jsSplitGet '?' request.url 1 "")

/-- `getUrlQueryParams(request)`: parse the query string inside a
`try`/`catch` that falls back to the empty mapping
(`parseQueryParamsString(null)` throws, which the `catch` swallows). -/
def getUrlQueryParams (request : Request) : List (String × String) :=
  match getUrlQueryString request with
  | none => []
  | some qs => parseQueryParamsString qs

/-- `hasBody(request)`: `parseInt(headers.get("content-length")) > 0`,
falling back to the `"Content-Length"` spelling when falsy.  Total — a
missing or non-numeric header is `NaN`, and `NaN > 0` is `false`. -/
def hasBody (request : Request) : Bool :=
  let ret := intGtZero (jsParseInt (headersGet request.headers "content-length"))
  if ret = false then
    intGtZero (jsParseInt (headersGet request.headers "Content-Length"))
  else ret

/-- JavaScript truthiness of a Promise object.  `hasBody` is `async`, so a
call without `await` yields a Promise object, and any object is truthy
regardless of the boolean it will resolve to.  `parseBody` tests
`!this.hasBody(request)` without `await`, which is therefore always
`false`. -/
def promiseTruthy (_resolved : Bool) : Bool := true

/-- The body of `parseBodyAsFormUrlEncoded` after the stream read: keep the
part after `?` when one occurs (`body.split("?")[1]`), strip every `"`
character, and decode as a query string. -/
def parseFormUrlEncodedText (body : String) : List (String × String) :=
  let body :=
    if body.data.contains '?' then jsSplitGet '?' body 1 "" else body
  let body := String.mk (body.data.filter (· ≠ '"'))
  parseQueryParamsString body

/-- `parseBodyAsFormUrlEncoded(request)`: read the whole body stream, then
decode the text.  The spec-modelled query-string decoder is total, so this
branch cannot fail. -/
def parseBodyAsFormUrlEncoded (s : Stream) : List (String × String) × Stream :=
  let r := readAll s
  (parseFormUrlEncodedText r.1, r.2)

/-- The regex `/boundary=([^\s]+)/` applied to the Content-Type text: the
first occurrence of `boundary=` followed by at least one non-whitespace
character, capturing the maximal run of non-whitespace characters. -/
def extractBoundaryAux : List Char → Option (List Char)
  | [] => none
  | c :: rest =>
    if listLeads "boundary=".data (c :: rest) then
      let tok := ((c :: rest).drop 9).takeWhile (fun ch => ¬ ch.isWhitespace)
      if tok.isEmpty then extractBoundaryAux rest else some tok
    else extractBoundaryAux rest

/-- `contentType.match(/boundary=([^\s]+)/)` capture group 1, or `none`
when the match fails (in which case `[1]` on `null` throws inside the
branch's `try`). -/
def extractBoundary (ct : String) : Option String :=
  (extractBoundaryAux ct.data).map String.mk

/-- `contentType && contentType.includes(pat)`: false when the header is
absent (`null`) or empty (falsy). -/
def ctMatches (contentType : Option String) (pat : String) : Bool :=
  match contentType with
  | none => false
  | some ct => ct != "" && strIncludes ct pat

/-- The `multipart/form-data` branch of `parseBody`: extract the boundary
(a failed match throws, wrapped by the branch's `catch`), read the stream,
and run the external form decoder with the normalized byte limit; a decoder
error re-raises wrapped. -/
def branchMultipart (env : JsEnv) (contentType : Option String) (limit : Int)
    (ret : ParsedBody) (s : Stream) : Except String ParsedBody × Stream :=
  if ctMatches contentType "multipart/form-data" then
    match extractBoundary (contentType.getD "") with
    | none =>
      (.error "Error reading request body as multipart/form-data.", s)
    | some b =>
      let r := readAll s
      match env.multipartDecode r.1 b limit with
      | .ok fields =>
        (.ok ⟨some "multipart/form-data", some (.multipart fields)⟩, r.2)
      | .error e =>
        (.error ("Error reading request body as multipart/form-data.\n" ++ e), r.2)
  else (.ok ret, s)

/-- The `application/json` branch of `parseBody`: read the stream and
`JSON.parse` it; a parse error re-raises wrapped. -/
def branchJson (env : JsEnv) (contentType : Option String)
    (ret : ParsedBody) (s : Stream) : Except String ParsedBody × Stream :=
  if ctMatches contentType "application/json" then
    let r := readAll s
    match env.jsonParse r.1 with
    | .ok v => (.ok ⟨some "application/json", some (.json v)⟩, r.2)
    | .error e =>
      (.error ("Error reading request body as application/json.\n" ++ e), r.2)
  else (.ok ret, s)

/-- The `application/x-www-form-urlencoded` branch of `parseBody`. -/
def branchUrlEncoded (contentType : Option String)
    (ret : ParsedBody) (s : Stream) : Except String ParsedBody × Stream :=
  if ctMatches contentType "application/x-www-form-urlencoded" then
    let r := parseBodyAsFormUrlEncoded s
    (.ok ⟨some "application/x-www-form-urlencoded", some (.form r.1)⟩, r.2)
  else (.ok ret, s)

/-- Sequence a branch after the previous ones: a thrown error propagates
past the remaining branches. -/
def runBranch
    (b : ParsedBody → Stream → Except String ParsedBody × Stream) :
    Except String ParsedBody × Stream → Except String ParsedBody × Stream
  | (.error e, s) => (.error e, s)
  | (.ok ret, s) => b ret s

/-- The outcome of `parseBody`: the returned `ParsedBody` (or the thrown
error), the state of the body stream, and the options object, whose
normalization is a mutation observable to the caller. -/
structure ParseResult where
  result : Except String ParsedBody
  stream : Stream
  options : Options

/-- `parseBody(request, options)`.  The guard `if (!this.hasBody(request))`
tests an un-awaited Promise, which is truthy, so the early return never
fires.  Then `options.memory_allocation.multipart_form_data` is normalized
(a `TypeError` when `memory_allocation` is `undefined`): absent/falsy
becomes `1024*1024*128` bytes, otherwise the value is multiplied by
`1024*1024`.  Finally the four content-type branches run in source order as
independent `if`s, each overwriting `ret` wholesale on success. -/
def parseBody (env : JsEnv) (request : Request) (options : Options) :
    ParseResult :=
  let ret : ParsedBody := ⟨none, none⟩
  if promiseTruthy (hasBody request) = false then
    ⟨.ok ret, request.body, options⟩
  else
    match options.memory_allocation with
    | none =>
      ⟨.error "TypeError: Cannot read property of undefined",
       request.body, options⟩
    | some ma =>
      let limit : Int :=
        match ma.multipart_form_data with
        | none => 1024 * 1024 * 128
        | some v => if v == 0 then 1024 * 1024 * 128 else v * (1024 * 1024)
      let options := { options with memory_allocation := some ⟨some limit⟩ }
      let contentType := headersGet request.headers "Content-Type"
      let r1 : Except String ParsedBody × Stream :=
        if truthyOpt contentType = false then
          let r := parseBodyAsFormUrlEncoded request.body
          (.ok ⟨some "application/x-www-form-urlencoded", some (.form r.1)⟩, r.2)
        else (.ok ret, request.body)
      let r2 := runBranch (branchMultipart env contentType limit) r1
      let r3 := runBranch (branchJson env contentType) r2
      let r4 := runBranch (branchUrlEncoded contentType) r3
      ⟨r4.1, r4.2, options⟩

/-- `setHeaders(request, headers)`: `headers.set(key, value)` for each pair
of the supplied mapping, in order. -/
def setHeaders (hs newHs : List (String × String)) : List (String × String) :=
  newHs.foldl (fun acc p => headersSet acc p.1 p.2) hs

/-- The outcome of `hydrate`: the request object with the attached fields
(mutations persist even when a later step throws), the parsed body captured
by the attached accessor closures when parsing succeeded, the overall
result, and the options object after `parseBody`'s normalization. -/
structure HydrateResult where
  request : Request
  parsed : Option ParsedBody
  result : Except String Unit
  options : Option Options

/-- The `if (options.headers) { this.setHeaders(request, options.headers) }`
step of `hydrate` (a merge is performed only when `options.headers` is
truthy). -/
def mergeOptionHeaders (request : Request) (opts : Options) : Request :=
  match opts.headers with
  | some hs => { request with headers := setHeaders request.headers hs }
  | none => request

/-- The two URL attachments of `hydrate`: `request.url_path = ...` then
`request.url_query_params = ...` (computed on the request that already
carries `url_path`). -/
def attachUrlFields (request : Request) : Request :=
  let request := { request with url_path := some (getUrlPath request) }
  { request with url_query_params := some (getUrlQueryParams request) }

/-- `hydrate(request, options)`.  Calling it without an options argument
makes `options.headers` throw a `TypeError`.  Otherwise: merge
`options.headers`, attach `url_path`, `url_query_params` and
`response_content_type` (in that order), then parse the body once; the
attached `getBodyParam`/`getBodyFile` closures index the captured parsed
body via `getRequestBodyParam`/`getRequestBodyFile`.  Note `parsed_body` is
never assigned on the request. -/
def hydrate (env : JsEnv) (request : Request) (options : Option Options) :
    HydrateResult :=
  match options with
  | none =>
    ⟨request, none, .error "TypeError: Cannot read property of undefined", none⟩
  | some opts =>
    let request := mergeOptionHeaders request opts
    let request := attachUrlFields request
    match getResponseContentType request opts.default_response_content_type with
    | .error e => ⟨request, none, .error e, some opts⟩
    | .ok rct =>
      let request := { request with response_content_type := some rct }
      let pr := parseBody env request opts
      let request := { request with body := pr.stream }
      match pr.result with
      | .error e => ⟨request, none, .error e, some pr.options⟩
      | .ok pb => ⟨request, some pb, .ok (), some pr.options⟩

/-! ## Spec-side definitions (for comparison with the code) -/

/-- The response-content-type negotiation as the spec words it (§4.2):
precedence body, then query, then header, then the default, falling back to
`"application/json"` when the default is empty/falsy. -/
def resolveResponseContentTypeSpec (bodyV queryV headerV dflt : Option String) :
    String :=
  if truthyOpt bodyV then bodyV.getD ""
  else if truthyOpt queryV then queryV.getD ""
  else if truthyOpt headerV then headerV.getD ""
  else if truthyOpt dflt then dflt.getD ""
  else "application/json"

/-- How many of the three decode branches a Content-Type text matches. -/
def matchCount (ct : String) : Nat :=
  (if strIncludes ct "multipart/form-data" then 1 else 0) +
  (if strIncludes ct "application/json" then 1 else 0) +
  (if strIncludes ct "application/x-www-form-urlencoded" then 1 else 0)

/-- The last of the three decode branches (in source order multipart, json,
urlencoded) that a Content-Type text matches. -/
def lastMatchCT (ct : String) : Option String :=
  if strIncludes ct "application/x-www-form-urlencoded" then
    some "application/x-www-form-urlencoded"
  else if strIncludes ct "application/json" then some "application/json"
  else if strIncludes ct "multipart/form-data" then some "multipart/form-data"
  else none

/-- Which decode branch produced a `data` value. -/
def branchTag : Option BodyData → Option String
  | none => none
  | some (.form _) => some "application/x-www-form-urlencoded"
  | some (.multipart _) => some "multipart/form-data"
  | some (.json _) => some "application/json"

/-- The characters after the first `?` (spec: "the substring after the
first `?`"). -/
def afterFirstQ (cs : List Char) : List Char :=
  (cs.dropWhile (· ≠ '?')).drop 1

/-- The characters before the first `?`. -/
def upToQ (cs : List Char) : List Char :=
  cs.takeWhile (· ≠ '?')

/-! ## Concrete fixtures -/

/-- External decoders that always fail (irrelevant to scenarios that never
reach them). -/
def env0 : JsEnv :=
  ⟨fun _ => .error "JSON parse failure", fun _ _ _ => .error "multipart failure"⟩

/-- External decoders that always succeed. -/
def envOk : JsEnv :=
  ⟨fun _ => .ok .null, fun _ _ _ => .ok []⟩

/-- A request with no `Content-Length` header (so `hasBody` is false) but a
non-empty underlying stream and no `Content-Type` header. -/
def c1req : Request := { url := "/", headers := [], body := ⟨"a=1", false⟩ }

/-- A request with no headers and an empty body stream: no body at all. -/
def c3req : Request := { url := "/", headers := [], body := ⟨"", false⟩ }

/-- Options with an empty `memory_allocation` object present. -/
def basicOpts : Options := { memory_allocation := some {} }

/-- A hydrated-enough request for exercising the negotiation chain. -/
def c2req : Request :=
  { url := "/", headers := [("Response-Content-Type", "text/xml")],
    body := ⟨"", false⟩,
    url_query_params := some [("response_content_type", "text/html")],
    parsed_body := some [("response_content_type", "text/plain")] }

/-- A request whose Content-Type text matches both the json and the
urlencoded branches. -/
def c5req : Request :=
  { url := "/",
    headers :=
      [("Content-Type", "application/json application/x-www-form-urlencoded")],
    body := ⟨"a=1", false⟩ }

/-- A URL with two `?` characters. -/
def c7req : Request := { url := "/a?b=1?c=2", headers := [], body := ⟨"", false⟩ }

/-- A URL with no `?` character. -/
def c7reqNoQ : Request := { url := "/a", headers := [], body := ⟨"", false⟩ }

/-- Options supplying a megabyte count for the multipart limit. -/
def c8opts : Options := { memory_allocation := some ⟨some 5⟩ }

/-- Two requests identical except for their body streams. -/
def c9req1 : Request :=
  { url := "/a?x=1",
    headers := [("Content-Type", "text/plain"), ("Content-Length", "3")],
    body := ⟨"abc", false⟩ }

/-- Same as `c9req1` with a different body. -/
def c9req2 : Request := { c9req1 with body := ⟨"zzz", false⟩ }

/-! ## Helper lemmas -/

theorem headersGet_congr (hs : List (String × String)) (n1 n2 : String)
    (h : strLower n1 = strLower n2) : headersGet hs n1 = headersGet hs n2 := by
  unfold headersGet
  have he : (fun p : String × String => lowerEq p.1 n1) =
      (fun p : String × String => lowerEq p.1 n2) := by
    funext p
    unfold lowerEq
    rw [h]
  rw [he]

theorem getUrlQueryParams_congr (a b : Request) (h : a.url = b.url) :
    getUrlQueryParams a = getUrlQueryParams b := by
  unfold getUrlQueryParams getUrlQueryString jsSplitGet
  rw [h]

theorem getResponseContentType_congr (a b : Request) (d : Option String)
    (hh : a.headers = b.headers) (hq : a.url_query_params = b.url_query_params)
    (hp : a.parsed_body = b.parsed_body) :
    getResponseContentType a d = getResponseContentType b d := by
  unfold getResponseContentType
  rw [hh, hq, hp]

theorem getResponseContentType_isOk (r : Request) (qp : List (String × String))
    (d : Option String) (h : r.url_query_params = some qp) :
    ∃ s, getResponseContentType r d = .ok s := by
  unfold getResponseContentType
  rw [h]
  exact ⟨_, rfl⟩

theorem ctChain_eq (hv qv bv dv : Option String) :
    (match (if truthyOpt bv then bv
            else if truthyOpt qv then qv
            else if truthyOpt hv then hv
            else none) with
      | none =>
        (match dv with
          | none => "application/json"
          | some s => if s == "" then "application/json" else s)
      | some s =>
        if s == "" then
          (match dv with
            | none => "application/json"
            | some s => if s == "" then "application/json" else s)
        else s)
    = resolveResponseContentTypeSpec bv qv hv dv := by
  unfold resolveResponseContentTypeSpec
  rcases bv with _ | b <;> rcases qv with _ | q <;> rcases hv with _ | hh <;>
    rcases dv with _ | dd <;>
    simp only [truthyOpt, Option.getD] <;> split_ifs <;> simp_all

theorem splitChar_of_not_mem (sep : Char) (cs : List Char) (h : sep ∉ cs) :
    splitChar sep cs = [cs] := by
  induction cs with
  | nil => rfl
  | cons c rest ih =>
    have hc : ¬ c = sep := fun hcs => h (hcs ▸ List.mem_cons_self c rest)
    have hr : sep ∉ rest := fun hm => h (List.mem_cons_of_mem c hm)
    unfold splitChar
    rw [if_neg hc, ih hr]

theorem takeWhile_of_not_mem (sep : Char) (cs : List Char) (h : sep ∉ cs) :
    cs.takeWhile (· ≠ sep) = cs := by
  induction cs with
  | nil => rfl
  | cons c rest ih =>
    have hc : ¬ c = sep := fun hcs => h (hcs ▸ List.mem_cons_self c rest)
    have hr : sep ∉ rest := fun hm => h (List.mem_cons_of_mem c hm)
    simp [List.takeWhile_cons, hc]
    exact fun x hx hxs => hr (hxs ▸ hx)

theorem splitChar_cons_self (sep : Char) (rest : List Char) :
    splitChar sep (sep :: rest) = [] :: splitChar sep rest := by
  simp [splitChar]

theorem splitChar_cons_ne (sep c : Char) (rest : List Char) (hc : ¬ c = sep) :
    splitChar sep (c :: rest) =
      match splitChar sep rest with
      | [] => [[c]]
      | g :: gs => (c :: g) :: gs := by
  simp only [splitChar]
  rw [if_neg hc]

theorem splitChar_of_mem (sep : Char) (cs : List Char) (h : sep ∈ cs) :
    splitChar sep cs =
      cs.takeWhile (· ≠ sep) ::
        splitChar sep ((cs.dropWhile (· ≠ sep)).drop 1) := by
  induction cs with
  | nil => cases h
  | cons c rest ih =>
    by_cases hc : c = sep
    · subst hc
      rw [splitChar_cons_self]
      have ht : List.takeWhile (fun x => decide (x ≠ c)) (c :: rest) = [] := by
        simp [List.takeWhile_cons]
      have hd : List.dropWhile (fun x => decide (x ≠ c)) (c :: rest) =
          c :: rest := by
        simp [List.dropWhile_cons]
      rw [ht, hd]
      rfl
    · have hr : sep ∈ rest := by
        cases List.mem_cons.mp h with
        | inl heq => exact absurd heq.symm hc
        | inr hm => exact hm
      rw [splitChar_cons_ne sep c rest hc, ih hr]
      have ht : List.takeWhile (fun x => decide (x ≠ sep)) (c :: rest) =
          c :: List.takeWhile (fun x => decide (x ≠ sep)) rest := by
        simp [List.takeWhile_cons, hc]
      have hd : List.dropWhile (fun x => decide (x ≠ sep)) (c :: rest) =
          List.dropWhile (fun x => decide (x ≠ sep)) rest := by
        simp [List.dropWhile_cons, hc]
      rw [ht, hd]

theorem splitChar_head (sep : Char) (cs : List Char) :
    (splitChar sep cs).getD 0 [] = cs.takeWhile (· ≠ sep) := by
  by_cases h : sep ∈ cs
  · rw [splitChar_of_mem sep cs h]
    rfl
  · rw [splitChar_of_not_mem sep cs h, takeWhile_of_not_mem sep cs h]
    rfl

theorem splitChar_second (sep : Char) (cs : List Char) (h : sep ∈ cs) :
    (splitChar sep cs).getD 1 [] =
      (((cs.dropWhile (· ≠ sep)).drop 1).takeWhile (· ≠ sep)) := by
  rw [splitChar_of_mem sep cs h]
  simpa using splitChar_head sep ((cs.dropWhile (· ≠ sep)).drop 1)

/-! ## Claim theorems -/

/-- C1 (code bug): the claim says that whenever `hasBody` is false,
`parseBody` returns a `ParsedBody` with `content_type` and `data` both
undefined and does not read the body stream.  The code tests
`!this.hasBody(request)` without `await`; the Promise object is truthy, so
the fail-fast branch never fires.  At this input `hasBody` is false (no
Content-Length header), yet `parseBody` decodes the stream as
`application/x-www-form-urlencoded`, returns a populated `ParsedBody`, and
consumes the stream. -/
theorem c1_parseBody_ignores_hasBody :
    hasBody c1req = false ∧
    (parseBody env0 c1req basicOpts).result =
      .ok ⟨some "application/x-www-form-urlencoded", some (.form [("a", "1")])⟩ ∧
    (parseBody env0 c1req basicOpts).stream.consumed = true :=
  ⟨rfl, rfl, rfl⟩

/-- C3 (code bug): the claim says `data` is undefined iff the request has
no body or the content type is unrecognized and unparseable.  For a request
with no body at all (`hasBody` false, empty stream) and no Content-Type
header, the code — again because the un-awaited `hasBody` Promise is truthy
— still runs the default urlencoded decode and returns `data` defined (the
empty mapping), violating the right-to-left direction of the claimed
equivalence. -/
theorem c3_data_defined_without_body :
    hasBody c3req = false ∧
    (parseBody env0 c3req basicOpts).result =
      .ok ⟨some "application/x-www-form-urlencoded", some (.form [])⟩ :=
  ⟨rfl, rfl⟩

/-- C4 counterexample: the claim says `getRequestBodyParam` returns
undefined and never raises even when the parsed body's `data` field is
itself undefined; but `parsedBody.data[input]` dereferences `undefined`,
which raises a `TypeError`. -/
theorem c4_raises_on_undefined_data :
    getRequestBodyParam ⟨some "text/plain", none⟩ "x" =
      .error "TypeError: Cannot read property of undefined" :=
  rfl

/-- C4 (amended): for every parsed body whose `data` is a defined mapping
(urlencoded form, multipart form, or JSON object) and every key absent from
it, `getRequestBodyParam` — the function the `getBodyParam` accessor
attached by `hydrate` closes over — returns undefined and does not raise;
when `data` is itself undefined the access throws a `TypeError` instead. -/
theorem c4_absent_key_yields_undefined (ct : Option String)
    (fs : List (String × String)) (js : List (String × JsValue)) (k : String)
    (h1 : fs.lookup k = none) (h2 : js.lookup k = none) :
    getRequestBodyParam ⟨ct, some (.form fs)⟩ k = .ok none ∧
    getRequestBodyParam ⟨ct, some (.multipart fs)⟩ k = .ok none ∧
    getRequestBodyParam ⟨ct, some (.json (.obj js))⟩ k = .ok none := by
  refine ⟨?_, ?_, ?_⟩ <;>
    simp [getRequestBodyParam, dataIndex, jsIndexJson, h1, h2]

theorem c4_absent_key_yields_undefined_witness :
    getRequestBodyParam ⟨none, some (.form [("a", "1")])⟩ "x" = .ok none ∧
    getRequestBodyParam ⟨none, some (.multipart [("a", "1")])⟩ "x" = .ok none ∧
    getRequestBodyParam ⟨none, some (.json (.obj [("a", .null)]))⟩ "x" = .ok none :=
  c4_absent_key_yields_undefined none [("a", "1")] [("a", .null)] "x" rfl rfl

/-- C6: `hasBody` is true exactly when the request's Content-Length header,
looked up case-insensitively, parses (JavaScript `parseInt`) to an integer
greater than zero; a missing or non-numeric header gives false.  `hasBody`
is a total function, so it never raises. -/
theorem c6_hasBody_iff (r : Request) :
    hasBody r = true ↔
      ∃ v n, headersGet r.headers "Content-Length" = some v ∧
        parseIntStr v = some n ∧ 0 < n := by
  have hcc : headersGet r.headers "content-length" =
      headersGet r.headers "Content-Length" :=
    headersGet_congr r.headers "content-length" "Content-Length" rfl
  unfold hasBody
  rw [hcc]
  cases hv : headersGet r.headers "Content-Length" with
  | none => simp [jsParseInt, intGtZero]
  | some v =>
    cases hp : parseIntStr v with
    | none => simp [jsParseInt, intGtZero, hp]
    | some n =>
      by_cases hn : (0 : Int) < n
      · simp [jsParseInt, intGtZero, hp, hn]
      · simp [jsParseInt, intGtZero, hp, hn]

/-- C8: `parseBody` normalizes `options.memory_allocation.multipart_form_data`
in place: an absent or falsy value is set to 134217728 (128 MiB in bytes),
a present value is multiplied by 1048576 (megabytes to bytes); the mutated
options object is what the caller observes, and the other fields of the
options object are unchanged. -/
theorem c8_options_normalized (env : JsEnv) (r : Request) (opts : Options)
    (ma : MemAlloc) (h : opts.memory_allocation = some ma) :
    (ma.multipart_form_data = none ∨ ma.multipart_form_data = some 0 →
      (parseBody env r opts).options.memory_allocation =
        some ⟨some 134217728⟩) ∧
    (∀ v : Int, ma.multipart_form_data = some v → v ≠ 0 →
      (parseBody env r opts).options.memory_allocation =
        some ⟨some (v * 1048576)⟩) ∧
    (parseBody env r opts).options.headers = opts.headers ∧
    (parseBody env r opts).options.default_response_content_type =
      opts.default_response_content_type := by
  unfold parseBody
  simp only [promiseTruthy, h]
  refine ⟨?_, ?_, ?_, ?_⟩
  · rintro (hm | hm) <;> simp [hm]
  · intro v hm hv
    simp [hm, hv]
  · simp
  · simp

theorem c8_options_normalized_witness :
    (parseBody env0 c1req c8opts).options.memory_allocation =
      some ⟨some (5 * 1048576)⟩ :=
  (c8_options_normalized env0 c1req c8opts ⟨some 5⟩ rfl).2.1 5 rfl (by decide)

/-- C10: `hydrate` called without an options argument throws a `TypeError`
(dereferencing `options.headers` on `undefined`) leaving the request
untouched, and `parseBody` called with options lacking `memory_allocation`
throws a `TypeError` (dereferencing `.multipart_form_data` on `undefined`)
before any body decoding: the stream and the options are unchanged. -/
theorem c10_missing_options_type_error (env : JsEnv) (r : Request)
    (opts : Options) (h : opts.memory_allocation = none) :
    (hydrate env r none).result =
      .error "TypeError: Cannot read property of undefined" ∧
    (hydrate env r none).request = r ∧
    (parseBody env r opts).result =
      .error "TypeError: Cannot read property of undefined" ∧
    (parseBody env r opts).stream = r.body ∧
    (parseBody env r opts).options = opts := by
  refine ⟨rfl, rfl, ?_, ?_, ?_⟩ <;>
    simp [parseBody, promiseTruthy, h]

theorem c10_missing_options_type_error_witness :
    (hydrate env0 c1req none).result =
      .error "TypeError: Cannot read property of undefined" ∧
    (hydrate env0 c1req none).request = c1req ∧
    (parseBody env0 c1req {}).result =
      .error "TypeError: Cannot read property of undefined" ∧
    (parseBody env0 c1req {}).stream = c1req.body ∧
    (parseBody env0 c1req {}).options = {} :=
  c10_missing_options_type_error env0 c1req {} rfl

/-- C2: `getResponseContentType` realizes exactly the spec's precedence
chain: the header, the `response_content_type` query parameter, and the
parsed body's `response_content_type` field are checked in that ascending
order with each later truthy (non-empty) source overwriting earlier ones,
so the result is the body value if truthy, else the query value, else the
header value, else the supplied default, else `"application/json"` when the
default is absent or empty. -/
theorem c2_negotiation_precedence (r : Request) (qp : List (String × String))
    (d : Option String) (h : r.url_query_params = some qp) :
    getResponseContentType r d =
      .ok (resolveResponseContentTypeSpec
        (r.parsed_body.bind (fun pb => pb.lookup "response_content_type"))
        (qp.lookup "response_content_type")
        (headersGet r.headers "Response-Content-Type")
        d) := by
  unfold getResponseContentType
  rw [h]
  cases hpb : r.parsed_body with
  | none =>
    exact congrArg Except.ok
      (ctChain_eq (headersGet r.headers "Response-Content-Type")
        (qp.lookup "response_content_type") none d)
  | some pb =>
    exact congrArg Except.ok
      (ctChain_eq (headersGet r.headers "Response-Content-Type")
        (qp.lookup "response_content_type")
        (pb.lookup "response_content_type") d)

theorem c2_negotiation_precedence_witness :
    getResponseContentType c2req (some "text/csv") = .ok "text/plain" := by
  rw [c2_negotiation_precedence c2req
      [("response_content_type", "text/html")] (some "text/csv") rfl]
  rfl

/-- C7 counterexample: for the URL `/a?b=1?c=2` the claim demands the
entire substring after the first `?`, namely `b=1?c=2`, but
`getUrlQueryString` evaluates `url.split("?")[1]`, which is only the
segment between the first and the second `?`. -/
theorem c7_second_question_mark_counterexample :
    getUrlQueryString c7req = some "b=1" ∧
    String.mk (afterFirstQ c7req.url.data) = "b=1?c=2" ∧
    getUrlQueryString c7req ≠ some (String.mk (afterFirstQ c7req.url.data)) := by
  refine ⟨rfl, rfl, ?_⟩
  decide

/-- C7 (amended): for a URL with no `?`, `getUrlQueryString` returns null;
for a URL containing a `?` it returns the substring after the first `?` up
to but excluding the next `?` (for a URL with exactly one `?` this is the
entire remainder, but a second `?` and everything after it are dropped). -/
theorem c7_query_string_between_marks (r : Request) :
    (r.url.data.contains '?' = false → getUrlQueryString r = none) ∧
    ('?' ∈ r.url.data →
      getUrlQueryString r =
        some (String.mk (upToQ (afterFirstQ r.url.data)))) := by
  constructor
  · intro h
    unfold getUrlQueryString
    rw [h]
    simp
  · intro h
    have hc : r.url.data.contains '?' = true := by
      simpa using h
    unfold getUrlQueryString jsSplitGet
    rw [hc]
    rw [if_neg (by decide : ¬ (true = false))]
    rw [splitChar_second '?' r.url.data h]
    simp [upToQ, afterFirstQ]

theorem c7_query_string_between_marks_witness :
    getUrlQueryString c7reqNoQ = none ∧
    getUrlQueryString c7req =
      some (String.mk (upToQ (afterFirstQ c7req.url.data))) :=
  ⟨(c7_query_string_between_marks c7reqNoQ).1 rfl,
   (c7_query_string_between_marks c7req).2 (by decide)⟩

theorem hydrate_rct_of_ok (env : JsEnv) (r : Request) (opts : Options)
    (s : String)
    (hs : getResponseContentType (attachUrlFields (mergeOptionHeaders r opts))
        opts.default_response_content_type = .ok s) :
    (hydrate env r (some opts)).request.response_content_type = some s := by
  simp only [hydrate, hs]
  split <;> simp

/-- C9: `hydrate` attaches `response_content_type` before `parseBody` runs
and never assigns `parsed_body` on the request, so two requests identical
in URL, headers and options, with `parsed_body` unset, receive the same
`response_content_type` no matter how their bodies differ: the body source
of the precedence chain cannot influence negotiation through `hydrate`. -/
theorem c9_negotiation_ignores_body (env : JsEnv) (r1 r2 : Request)
    (opts : Options) (hurl : r1.url = r2.url) (hhdr : r1.headers = r2.headers)
    (hp1 : r1.parsed_body = none) (hp2 : r2.parsed_body = none) :
    (hydrate env r1 (some opts)).request.response_content_type =
      (hydrate env r2 (some opts)).request.response_content_type := by
  have hmu : (mergeOptionHeaders r1 opts).url = (mergeOptionHeaders r2 opts).url := by
    unfold mergeOptionHeaders
    cases opts.headers <;> simp [hurl]
  have hmh : (mergeOptionHeaders r1 opts).headers =
      (mergeOptionHeaders r2 opts).headers := by
    unfold mergeOptionHeaders
    cases opts.headers <;> simp [hhdr]
  have hmp : (mergeOptionHeaders r1 opts).parsed_body = none := by
    unfold mergeOptionHeaders
    cases opts.headers <;> simp [hp1]
  have hmp2 : (mergeOptionHeaders r2 opts).parsed_body = none := by
    unfold mergeOptionHeaders
    cases opts.headers <;> simp [hp2]
  have hqp : getUrlQueryParams
        { mergeOptionHeaders r1 opts with
          url_path := some (getUrlPath (mergeOptionHeaders r1 opts)) } =
      getUrlQueryParams
        { mergeOptionHeaders r2 opts with
          url_path := some (getUrlPath (mergeOptionHeaders r2 opts)) } :=
    getUrlQueryParams_congr _ _ (by simpa using hmu)
  have hau : (attachUrlFields (mergeOptionHeaders r1 opts)).url_query_params =
      (attachUrlFields (mergeOptionHeaders r2 opts)).url_query_params := by
    simp only [attachUrlFields]
    exact congrArg some hqp
  have hgr : getResponseContentType (attachUrlFields (mergeOptionHeaders r1 opts))
        opts.default_response_content_type =
      getResponseContentType (attachUrlFields (mergeOptionHeaders r2 opts))
        opts.default_response_content_type := by
    refine getResponseContentType_congr _ _ _ ?_ hau ?_
    · simpa [attachUrlFields] using hmh
    · simp [attachUrlFields, hmp, hmp2]
  obtain ⟨s, hs⟩ := getResponseContentType_isOk
    (attachUrlFields (mergeOptionHeaders r1 opts))
    (getUrlQueryParams
      { mergeOptionHeaders r1 opts with
        url_path := some (getUrlPath (mergeOptionHeaders r1 opts)) })
    opts.default_response_content_type rfl
  have hs2 : getResponseContentType (attachUrlFields (mergeOptionHeaders r2 opts))
      opts.default_response_content_type = .ok s := by
    rw [← hgr]
    exact hs
  rw [hydrate_rct_of_ok env r1 opts s hs, hydrate_rct_of_ok env r2 opts s hs2]

theorem runBranch_urlEncoded_pass (contentType : Option String)
    (prev : Except String ParsedBody × Stream)
    (h : ctMatches contentType "application/x-www-form-urlencoded" = false) :
    runBranch (branchUrlEncoded contentType) prev = prev := by
  rcases prev with ⟨e, s⟩
  cases e with
  | error e => rfl
  | ok ret => simp [runBranch, branchUrlEncoded, h]

theorem runBranch_urlEncoded_ok (contentType : Option String)
    (prev : Except String ParsedBody × Stream) (pb : ParsedBody)
    (h : ctMatches contentType "application/x-www-form-urlencoded" = true)
    (hok : (runBranch (branchUrlEncoded contentType) prev).1 = .ok pb) :
    pb.content_type = some "application/x-www-form-urlencoded" ∧
    ∃ fs, pb.data = some (.form fs) := by
  rcases prev with ⟨e, s⟩
  cases e with
  | error e => simp [runBranch] at hok
  | ok ret =>
    simp only [runBranch, branchUrlEncoded, h, if_true] at hok
    simp at hok
    rw [← hok]
    exact ⟨rfl, _, rfl⟩

theorem runBranch_json_ok (env : JsEnv) (contentType : Option String)
    (prev : Except String ParsedBody × Stream) (pb : ParsedBody)
    (h : ctMatches contentType "application/json" = true)
    (hok : (runBranch (branchJson env contentType) prev).1 = .ok pb) :
    pb.content_type = some "application/json" ∧
    ∃ v, pb.data = some (.json v) := by
  rcases prev with ⟨e, s⟩
  cases e with
  | error e => simp [runBranch] at hok
  | ok ret =>
    simp only [runBranch, branchJson, h, if_true] at hok
    cases hj : env.jsonParse (readAll s).1 with
    | ok v =>
      rw [hj] at hok
      simp at hok
      rw [← hok]
      exact ⟨rfl, _, rfl⟩
    | error e =>
      rw [hj] at hok
      simp at hok

/-- C5: the multipart, json and urlencoded branches of `parseBody` are
independent `if`s executed in that order, each overwriting `content_type`
and `data` wholesale, so whenever the Content-Type text matches more than
one branch and `parseBody` returns, the returned `content_type` and the
shape of the returned `data` are those of the last matching branch
(urlencoded last, then json, then multipart). -/
theorem c5_last_branch_wins (env : JsEnv) (r : Request) (opts : Options)
    (ct : String) (hct : headersGet r.headers "Content-Type" = some ct)
    (hm : 2 ≤ matchCount ct) (pb : ParsedBody)
    (hok : (parseBody env r opts).result = .ok pb) :
    pb.content_type = lastMatchCT ct ∧ branchTag pb.data = lastMatchCT ct := by
  unfold parseBody at hok
  rw [hct] at hok
  have hpt : ¬ (promiseTruthy (hasBody r) = false) := by simp [promiseTruthy]
  rw [if_neg hpt] at hok
  cases hma : opts.memory_allocation with
  | none =>
    rw [hma] at hok
    simp at hok
  | some ma =>
    rw [hma] at hok
    simp only [] at hok
    by_cases hU : strIncludes ct "application/x-www-form-urlencoded" = true
    · have hne : ct ≠ "" := by
        intro hc
        subst hc
        exact absurd hU (by decide)
      have hbne : (ct != "") = true := by simpa using hne
      have hcm : ctMatches (some ct) "application/x-www-form-urlencoded" = true := by
        simp [ctMatches, hU, hbne]
      obtain ⟨hc1, fs, hc2⟩ := runBranch_urlEncoded_ok (some ct) _ pb hcm hok
      refine ⟨?_, ?_⟩
      · rw [hc1]
        simp [lastMatchCT, hU]
      · rw [hc2]
        simp [branchTag, lastMatchCT, hU]
    · have hUf : strIncludes ct "application/x-www-form-urlencoded" = false := by
        simpa using hU
      have hpass : ctMatches (some ct) "application/x-www-form-urlencoded" = false := by
        simp [ctMatches, hUf]
      rw [runBranch_urlEncoded_pass (some ct) _ hpass] at hok
      have hJ : strIncludes ct "application/json" = true := by
        by_contra hJ
        have hJf : strIncludes ct "application/json" = false := by simpa using hJ
        cases hMC : strIncludes ct "multipart/form-data" <;>
          simp [matchCount, hUf, hJf, hMC] at hm
      have hne : ct ≠ "" := by
        intro hc
        subst hc
        exact absurd hJ (by decide)
      have hbne : (ct != "") = true := by simpa using hne
      have hcm : ctMatches (some ct) "application/json" = true := by
        simp [ctMatches, hJ, hbne]
      obtain ⟨hc1, v, hc2⟩ := runBranch_json_ok env (some ct) _ pb hcm hok
      refine ⟨?_, ?_⟩
      · rw [hc1]
        simp [lastMatchCT, hUf, hJ]
      · rw [hc2]
        simp [branchTag, lastMatchCT, hUf, hJ]

theorem c5_last_branch_wins_witness :
    (⟨some "application/x-www-form-urlencoded",
        some (.form ([] : List (String × String)))⟩ : ParsedBody).content_type =
      lastMatchCT "application/json application/x-www-form-urlencoded" ∧
    branchTag (⟨some "application/x-www-form-urlencoded",
        some (.form ([] : List (String × String)))⟩ : ParsedBody).data =
      lastMatchCT "application/json application/x-www-form-urlencoded" :=
  c5_last_branch_wins envOk c5req basicOpts
    "application/json application/x-www-form-urlencoded" rfl (by decide)
    ⟨some "application/x-www-form-urlencoded", some (.form [])⟩ rfl

theorem c9_negotiation_ignores_body_witness :
    (hydrate env0 c9req1 (some basicOpts)).request.response_content_type =
      (hydrate env0 c9req2 (some basicOpts)).request.response_content_type :=
  c9_negotiation_ignores_body env0 c9req1 c9req2 basicOpts rfl rfl rfl rfl

end Drash
